import Mathlib

/-!
Verification of the hero/OG image scraper (`app.py`) against its
natural-language specification.

The source program works on HTML documents parsed by BeautifulSoup with the
lxml builder.  We embed the parsed document as a tree of nodes: an element
node carries its (lower-cased) tag name, its ordinary string-valued
attributes, its `class` attribute (which the parser stores as a list of
whitespace-separated tokens, or `none` when the attribute is absent), and
its children in document order.  Text nodes carry their text.

`soup.find(...)` returns the first matching node of the pre-order
(document-order) traversal of the whole document; `tag.find(...)` searches
only the descendants of `tag`; `soup.find_all(...)` returns every match in
document order.  These are embedded as `findNodeList` / `findAllList` below.
-/

inductive Node where
  | text (s : String)
  | elem (name : String) (attrs : List (String × String))
      (classes : Option (List String)) (children : List Node)

/-- A parsed document is the list of top-level nodes in document order. -/
abbrev Doc := List Node

mutual

/-- Pre-order search: first node (document order) satisfying `p`, searching a
node and then its children.  `findNodeList` searches a forest left to right. -/
def findNode (p : Node → Bool) : Node → Option Node
  | .text s => if p (.text s) then some (.text s) else none
  | .elem n a c ch =>
      if p (.elem n a c ch) then some (.elem n a c ch) else findNodeList p ch

def findNodeList (p : Node → Bool) : List Node → Option Node
  | [] => none
  | n :: rest =>
      match findNode p n with
      | some r => some r
      | none => findNodeList p rest

end

mutual

/-- Pre-order collection: every node (document order) satisfying `p`. -/
def findAllNode (p : Node → Bool) : Node → List Node
  | .text s => if p (.text s) then [.text s] else []
  | .elem n a c ch =>
      (if p (.elem n a c ch) then [.elem n a c ch] else []) ++ findAllList p ch

def findAllList (p : Node → Bool) : List Node → List Node
  | [] => []
  | n :: rest => findAllNode p n ++ findAllList p rest

end

/-- `tag.get(key)` for an ordinary (non-`class`) attribute: the attribute
value if present.  Text nodes have no attributes. -/
def node_get (n : Node) (k : String) : Option String :=
  match n with
  | .elem _ attrs _ _ => attrs.lookup k
  | .text _ => none

/-!
### String helpers

The Python string operations used by the source (`in`, `.strip()`,
`.startswith`, `.split`) are embedded as structurally recursive functions on
the character list of a `String`, so that every definition evaluates inside
the kernel.  They model Python semantics on ASCII text.
-/

/-- `needle` is a prefix of `hay` (character lists). -/
def list_pre_of (needle hay : List Char) : Bool :=
  match needle, hay with
  | [], _ => true
  | _ :: _, [] => false
  | a :: as_, b :: bs => a == b && list_pre_of as_ bs

/-- `needle` occurs somewhere in `hay` (character lists). -/
def list_sub_of (needle hay : List Char) : Bool :=
  match hay with
  | [] => list_pre_of needle []
  | _ :: t => list_pre_of needle hay || list_sub_of needle t

/-- Python's `needle in hay` substring test. -/
def pyStrIn (needle hay : String) : Bool :=
  list_sub_of needle.toList hay.toList

/-- Python's `hay.startswith(needle)`. -/
def pyStarts (hay needle : String) : Bool :=
  list_pre_of needle.toList hay.toList

/-- A character Python's `str.strip()` removes (ASCII whitespace). -/
def py_space (c : Char) : Bool :=
  c == ' ' || c == '\t' || c == '\n' || c == '\r' || c == '\x0b' || c == '\x0c'

/-- Python's `s.strip()`: remove leading and trailing whitespace. -/
def py_strip (s : String) : String :=
  String.mk (((s.toList.dropWhile py_space).reverse.dropWhile py_space).reverse)

/-!
### Extractor (`extract_og_image`, `extract_hero_image`)

`soup.find("meta", property="og:image")` matches the first `meta` element
whose `property` attribute equals `"og:image"` exactly.

A `class_` filter given as a Python lambda is applied by BeautifulSoup
(`SoupStrainer._matches`) to each token of the multi-valued `class`
attribute, and — when no token matched — retried on the space-joined class
value; a tag with no `class` attribute passes `None` to the lambda, and
every lambda in the source starts with `c and …`, so such a tag never
matches.  `class_matches` embeds exactly this behaviour.
-/

/-- Python's `" ".join(...)` on the class token list. -/
def join_space : List String → String
  | [] => ""
  | [t] => t
  | t :: x :: xs => t ++ " " ++ join_space (x :: xs)

/-- BeautifulSoup's matching of a `class_` callable `f` against the parsed
`class` attribute: some individual class token satisfies `f`, or the
space-joined class value does. -/
def class_matches (f : String → Bool) : Option (List String) → Bool
  | none => false
  | some toks => toks.any f || f (join_space toks)

/-- The filter `soup.find("meta", property="og:image")` applies. -/
def is_og_meta (n : Node) : Bool :=
  match n with
  | .elem nm attrs _ _ => nm == "meta" && attrs.lookup "property" == some "og:image"
  | .text _ => false

/-- `extract_og_image`: the first `meta[property=og:image]` in document
order; if it has a truthy (present, non-empty) `content` attribute, return
`content.strip()`, else `None`. -/
def extract_og_image (doc : Doc) : Option String :=
  match findNodeList is_og_meta doc with
  | some tag =>
      match node_get tag "content" with
      | some c => if c = "" then none else some (py_strip c)
      | none => none
  | none => none

/-- The five marker classes of the hero-image container (`required_classes`
in the source). -/
def required_classes : List String :=
  ["s_col", "col-md-6", "d-md-flex", "flex-column", "align-items-md-end"]

/-- The strategy-1 `class_` lambda: `c and all(rc in c for rc in
required_classes)` — truthy token containing all five markers as substrings. -/
def strat1_class_fn (c : String) : Bool :=
  decide (c ≠ "") && required_classes.all (fun rc => pyStrIn rc c)

/-- The `class_` lambda `c and "no_lazy" in c`. -/
def no_lazy_class_fn (c : String) : Bool :=
  decide (c ≠ "") && pyStrIn "no_lazy" c

/-- The `class_` lambda `c and "s_col" in c`. -/
def s_col_class_fn (c : String) : Bool :=
  decide (c ≠ "") && pyStrIn "s_col" c

/-- Filter for `find("div", class_=f)` / `find_all("div", class_=f)`. -/
def is_div_with (f : String → Bool) (n : Node) : Bool :=
  match n with
  | .elem nm _ cls _ => nm == "div" && class_matches f cls
  | .text _ => false

/-- Filter for `find("img", class_=lambda c: c and "no_lazy" in c)`. -/
def is_no_lazy_img (n : Node) : Bool :=
  match n with
  | .elem nm _ cls _ => nm == "img" && class_matches no_lazy_class_fn cls
  | .text _ => false

/-- The body shared by both strategies: inside a container, find the first
`img.no_lazy` descendant; if it has a truthy `src`, return `src.strip()`. -/
def div_hero_src (n : Node) : Option String :=
  match n with
  | .elem _ _ _ ch =>
      match findNodeList is_no_lazy_img ch with
      | some img =>
          match node_get img "src" with
          | some s => if s = "" then none else some (py_strip s)
          | none => none
      | none => none
  | .text _ => none

/-- `extract_hero_image`: strategy 1 finds the first `div` whose class
matches `strat1_class_fn` and tries its first `img.no_lazy`; if that yields
nothing, strategy 2 walks every `div` whose class matches `s_col_class_fn`
in document order and returns the first hit. -/
def extract_hero_image (doc : Doc) : Option String :=
  let strat1 :=
    match findNodeList (is_div_with strat1_class_fn) doc with
    | some container => div_hero_src container
    | none => none
  match strat1 with
  | some s => some s
  | none => (findAllList (is_div_with s_col_class_fn) doc).findSome? div_hero_src

/-!
### Scrape loop (`scrape_images`, `main`)

The fetcher is effectful; the loop is embedded relative to an arbitrary
fetch function `fetch : String → Option Doc` (`none` models a
`requests.RequestException`, `some doc` a successfully fetched and parsed
body).  Progress reporting and `time.sleep` are side channels with no effect
on the result data and are not part of the embedding.
-/

structure PageResult where
  url : String
  hero_image : Option String
  og_image : Option String
  status : String
deriving Repr, DecidableEq

/-- `scrape_images(url)`: start from the `pending` record, set `error` when
the fetch fails, otherwise run both extractors and set `ok`. -/
def scrape_images (fetch : String → Option Doc) (url : String) : PageResult :=
  let result : PageResult :=
    { url := url, hero_image := none, og_image := none, status := "pending" }
  match fetch url with
  | none => { result with status := "error" }
  | some doc =>
      { result with
        hero_image := extract_hero_image doc
        og_image := extract_og_image doc
        status := "ok" }

/-- URL normalization in `main`: prepend `https://` unless the URL already
starts with `http`. -/
def normalize_url (u : String) : String :=
  if pyStarts u "http" then u else "https://" ++ u

/-- The `valid_urls` list built by `main` from the raw input lines. -/
def valid_urls (raw : List String) : List String :=
  raw.map normalize_url

/-- The result-accumulating loop of `main`:
`for url in valid_urls: results.append(scrape_images(url))`. -/
def run_scrape (fetch : String → Option Doc) (raw : List String) : List PageResult :=
  (valid_urls raw).foldl (fun acc url => acc ++ [scrape_images fetch url]) []

/-!
### Image packager (`_safe_filename`, `build_zip`)

`_safe_filename` uses `urlparse(url).path` and `PurePosixPath(path).name`;
both are embedded below following CPython's `urllib.parse` (3.11+) and
`pathlib`, at ASCII fidelity.
-/

/-- Characters CPython's `urlsplit` strips from the left of a URL
(`_WHATWG_C0_CONTROL_OR_SPACE`: code points `0x00`–`0x20`). -/
def c0_or_space (c : Char) : Bool := c.val ≤ 32

/-- Characters CPython's `urlsplit` removes everywhere
(`_UNSAFE_URL_BYTES_TO_REMOVE`: tab, CR, LF). -/
def unsafe_url_byte (c : Char) : Bool := c == '\t' || c == '\r' || c == '\n'

/-- `scheme_chars` of `urllib.parse`. -/
def scheme_chars : List Char :=
  "abcdefghijklmnopqrstuvwxyzABCDEFGHIJKLMNOPQRSTUVWXYZ0123456789+-.".toList

/-- The schemes for which `urlparse` splits `;parameters` off the path
(`uses_params` of `urllib.parse`). -/
def uses_params : List String :=
  ["", "ftp", "hdl", "prospero", "http", "imap", "https", "shttp", "rtsp",
   "rtspu", "sip", "sips", "mms", "sftp", "tel"]

/-- Scheme recognition of `urlsplit`: if the URL has a `:` at position
`i > 0`, its first character is an ASCII letter and everything before the
`:` is a scheme character, split off the (lower-cased) scheme.  Returns
`(scheme, rest)`. -/
def split_scheme (cs : List Char) : String × List Char :=
  match cs.findIdx? (fun c => c == ':') with
  | some i =>
      if i > 0 && (match cs.head? with | some c => c.isAlpha | none => false)
          && (cs.take i).all (fun c => scheme_chars.contains c) then
        (String.mk ((cs.take i).map Char.toLower), cs.drop (i + 1))
      else ("", cs)
  | none => ("", cs)

/-- Netloc removal of `urlsplit`: after `//`, the netloc extends to the next
`/`, `?` or `#`; the rest (starting at that delimiter) is kept. -/
def split_netloc (cs : List Char) : List Char :=
  match cs with
  | '/' :: '/' :: rest => rest.dropWhile (fun c => c != '/' && c != '?' && c != '#')
  | _ => cs

/-- `_splitparams`: drop `;parameters` from the last path segment. -/
def split_params (cs : List Char) : List Char :=
  if cs.contains ';' then
    if cs.contains '/' then
      match (cs.reverse.findIdx? (fun c => c == '/')) with
      | some j =>
          let lastSlash := cs.length - 1 - j
          match (cs.drop lastSlash).findIdx? (fun c => c == ';') with
          | some k => cs.take (lastSlash + k)
          | none => cs
      | none => cs
    else
      match cs.findIdx? (fun c => c == ';') with
      | some i => cs.take i
      | none => cs
  else cs

/-- `urlparse(url).path`: sanitize, split off scheme and netloc, drop the
fragment and the query, and (for `uses_params` schemes) the parameters. -/
def urlparse_path (url : String) : String :=
  let cs := (url.toList.dropWhile c0_or_space).filter (fun c => !unsafe_url_byte c)
  let sr := split_scheme cs
  let cs := split_netloc sr.2
  let cs := cs.takeWhile (fun c => c != '#')
  let cs := cs.takeWhile (fun c => c != '?')
  let cs := if uses_params.contains sr.1 then split_params cs else cs
  String.mk cs

/-- Split a character list on a separator character (Python `str.split`). -/
def split_on_char (sep : Char) : List Char → List (List Char)
  | [] => [[]]
  | c :: rest =>
      let r := split_on_char sep rest
      if c == sep then [] :: r
      else
        match r with
        | h :: t => (c :: h) :: t
        | [] => [[c]]

/-- `PurePosixPath(path).name`: the last path component, after dropping
empty components and `.` components. -/
def posix_name (path : String) : String :=
  let parts := (split_on_char '/' path.toList).filter
    (fun p => decide (p ≠ []) && decide (p ≠ ['.']))
  String.mk (parts.getLast?.getD [])

/-- The non-ASCII alphanumeric characters of the Latin-1 range, as
classified by Python (`str.isalnum`): the letters `U+00C0`–`U+00FF` except
`×` (`U+00D7`) and `÷` (`U+00F7`), the letters `ª` (`U+00AA`), `µ`
(`U+00B5`), `º` (`U+00BA`), and the numerics `²` `³` `¹` (`U+00B2`,
`U+00B3`, `U+00B9`) and `¼` `½` `¾` (`U+00BC`–`U+00BE`). -/
def latin1_alnum (c : Char) : Bool :=
  (0xC0 ≤ c.val && c.val ≤ 0xFF && c.val != 0xD7 && c.val != 0xF7)
  || c.val == 0xAA || c.val == 0xB5 || c.val == 0xBA
  || c.val == 0xB2 || c.val == 0xB3 || c.val == 0xB9
  || (0xBC ≤ c.val && c.val ≤ 0xBE)

/-- Python's regex `\w` (Unicode-aware): a character alphanumeric in the
Unicode database, or an underscore.  Embedded exactly for code points up to
`U+00FF` (ASCII plus Latin-1); characters above `U+00FF` are treated as
non-word characters by this model. -/
def pyWordChar (c : Char) : Bool := (c.isAlphanum || latin1_alnum c) || c == '_'

/-- `re.sub(r"[^\w\-]", "_", s)`: replace every character that is neither a
word character nor `-` by `_`. -/
def sanitize_slug (s : String) : String :=
  String.mk (s.toList.map (fun c => if pyWordChar c || c == '-' then c else '_'))

/-- `_safe_filename(img_url, page_url, suffix)` from the source. -/
def safe_filename (img_url page_url suffix : String) : String :=
  let page_slug0 := posix_name (urlparse_path page_url)
  let page_slug := sanitize_slug (if page_slug0 = "" then "page" else page_slug0)
  let img_name0 := posix_name (urlparse_path img_url)
  let img_name := if img_name0 = "" then "image" else img_name0
  page_slug ++ "__" ++ suffix ++ "__" ++ img_name

/-- Downloaded image bytes, abstracted. -/
abbrev Bytes := List Nat

/-- An `(img_url, page_url, kind)` triple of `build_zip`'s `image_urls`. -/
structure ImageTask where
  img_url : String
  page_url : String
  kind : String
deriving Repr, DecidableEq

/-- The hero task of one result: emitted when `r.get("hero_image")` is
truthy (present and non-empty). -/
def hero_tasks_of (r : PageResult) : List ImageTask :=
  match r.hero_image with
  | some h => if h = "" then [] else [{ img_url := h, page_url := r.url, kind := "hero" }]
  | none => []

/-- The OG task of one result: emitted when `r.get("og_image")` is truthy. -/
def og_tasks_of (r : PageResult) : List ImageTask :=
  match r.og_image with
  | some o => if o = "" then [] else [{ img_url := o, page_url := r.url, kind := "og" }]
  | none => []

/-- The `image_urls` list `build_zip` accumulates: per result in input
order, the hero task (if truthy) then the OG task (if truthy). -/
def image_tasks (results : List PageResult) : List ImageTask :=
  results.flatMap (fun r => hero_tasks_of r ++ og_tasks_of r)

/-- One loop iteration of `build_zip`, relative to an image fetcher: on
success the archive entry `(_safe_filename(...), bytes)` is written, on a
fetch error nothing is. -/
def download_entry (fetch_img : String → Option Bytes) (t : ImageTask) :
    Option (String × Bytes) :=
  match fetch_img t.img_url with
  | some b => some (safe_filename t.img_url t.page_url t.kind, b)
  | none => none

/-- `build_zip(results)`: `None` when no image was discovered, otherwise the
archive, modelled as its list of entries in write order. -/
def build_zip (fetch_img : String → Option Bytes) (results : List PageResult) :
    Option (List (String × Bytes)) :=
  let tasks := image_tasks results
  if tasks = [] then none
  else some (tasks.filterMap (download_entry fetch_img))

/-!
### Specification-side definitions

The following definitions are written from the words of the specification's
claims (not from the source); the claim theorems compare them with the
source-embedded functions above.
-/

/-- Claim C1's primary container: a `div` whose class list contains all five
marker tokens as members (extra tokens allowed). -/
def spec_primary_div (n : Node) : Bool :=
  match n with
  | .elem nm _ cls _ =>
      nm == "div" &&
        (match cls with
         | some toks => required_classes.all (fun rc => toks.contains rc)
         | none => false)
  | .text _ => false

/-- Claim C1's fallback container: a `div` whose class list contains the
token `s_col`. -/
def spec_s_col_div (n : Node) : Bool :=
  match n with
  | .elem nm _ cls _ =>
      nm == "div" &&
        (match cls with
         | some toks => toks.contains "s_col"
         | none => false)
  | .text _ => false

/-- Claim C1's image: an `img` whose class list contains the token
`no_lazy` and whose `src` is present and non-empty. -/
def spec_good_img (n : Node) : Bool :=
  match n with
  | .elem nm attrs cls _ =>
      nm == "img" &&
        (match cls with
         | some toks => toks.contains "no_lazy"
         | none => false) &&
        (match attrs.lookup "src" with
         | some s => decide (s ≠ "")
         | none => false)
  | .text _ => false

/-- The trimmed `src` of the first qualifying image inside a container. -/
def spec_img_src_in (n : Node) : Option String :=
  match n with
  | .elem _ _ _ ch =>
      match findNodeList spec_good_img ch with
      | some img => (node_get img "src").map py_strip
      | none => none
  | .text _ => none

/-- Hero extraction as claim C1 states it: the token-based two-tier
algorithm. -/
def spec_hero_image (doc : Doc) : Option String :=
  let tier1 :=
    match findNodeList spec_primary_div doc with
    | some container => spec_img_src_in container
    | none => none
  match tier1 with
  | some s => some s
  | none => (findAllList spec_s_col_div doc).findSome? spec_img_src_in

/-- OG extraction as claim C2 states it: the trimmed content of the first
`meta[property=og:image]`, present exactly when the content is non-empty
after trimming. -/
def spec_og_image (doc : Doc) : Option String :=
  match findNodeList is_og_meta doc with
  | some tag =>
      match node_get tag "content" with
      | some c => if py_strip c = "" then none else some (py_strip c)
      | none => none
  | none => none

/-- OG extraction as amended for claim C2: only the first
`meta[property=og:image]` of the document-order list of all such metas is
considered, and the trimmed content is returned exactly when the content
attribute is present and non-empty before trimming. -/
def spec_og_image_amended (doc : Doc) : Option String :=
  match (findAllList is_og_meta doc).head? with
  | some tag =>
      match node_get tag "content" with
      | some c => if c = "" then none else some (py_strip c)
      | none => none
  | none => none

/-- The task list as claim C5 states it: a hero task whenever the hero
field is present, then an OG task whenever the OG field is present. -/
def spec_tasks_present (results : List PageResult) : List ImageTask :=
  results.flatMap (fun r =>
    (match r.hero_image with
     | some h => [{ img_url := h, page_url := r.url, kind := "hero" }]
     | none => []) ++
    (match r.og_image with
     | some o => [{ img_url := o, page_url := r.url, kind := "og" }]
     | none => []))

/-- The task list as amended for claim C5: a task only for a present and
non-empty image field. -/
def spec_tasks_nonempty (results : List PageResult) : List ImageTask :=
  results.flatMap (fun r =>
    ((r.hero_image.filter (fun s => s != "")).map
      (fun h => ImageTask.mk h r.url "hero")).toList ++
    ((r.og_image.filter (fun s => s != "")).map
      (fun o => ImageTask.mk o r.url "og")).toList)

/-- A character of the class `[A-Za-z0-9_-]` named by claim C6
(`isUpper` is `A`–`Z`, `isLower` is `a`–`z`, `isDigit` is `0`–`9`). -/
def spec_keep_char (c : Char) : Bool :=
  ((c.isUpper || c.isLower) || c.isDigit) || c == '_' || c == '-'

/-- The page slug of claim C6: last path segment of the page URL (or
`page` when empty), every character outside `[A-Za-z0-9_-]` replaced by
`_`. -/
def spec_page_slug (page_url : String) : String :=
  let seg := posix_name (urlparse_path page_url)
  let seg := if seg = "" then "page" else seg
  String.mk (seg.toList.map (fun c => if spec_keep_char c then c else '_'))

/-- The image name of claim C6: last path segment of the image URL, or
`image` when empty. -/
def spec_image_name (img_url : String) : String :=
  let seg := posix_name (urlparse_path img_url)
  if seg = "" then "image" else seg

/-- Claim C1 as amended, primary container: a `div` whose space-joined
class value contains all five markers as substrings (substring, not
whole-token, matching). -/
def spec_primary_div_sub (n : Node) : Bool :=
  match n with
  | .elem nm _ cls _ =>
      nm == "div" &&
        (match cls with
         | some toks => required_classes.all (fun rc => pyStrIn rc (join_space toks))
         | none => false)
  | .text _ => false

/-- Claim C1 as amended, fallback container: a `div` whose space-joined
class value contains `s_col` as a substring. -/
def spec_s_col_div_sub (n : Node) : Bool :=
  match n with
  | .elem nm _ cls _ =>
      nm == "div" &&
        (match cls with
         | some toks => pyStrIn "s_col" (join_space toks)
         | none => false)
  | .text _ => false

/-- Claim C1 as amended: an `img` whose space-joined class value contains
`no_lazy` as a substring. -/
def spec_no_lazy_img_sub (n : Node) : Bool :=
  match n with
  | .elem nm _ cls _ =>
      nm == "img" &&
        (match cls with
         | some toks => pyStrIn "no_lazy" (join_space toks)
         | none => false)
  | .text _ => false

/-- Claim C1 as amended, per-container candidate: the first `no_lazy` image
(document order) inside the container, provided it has a non-empty `src`;
its trimmed `src`.  A container whose first `no_lazy` image lacks a
non-empty `src` yields nothing (later images are not considered). -/
def spec_candidate_src (n : Node) : Option String :=
  match n with
  | .elem _ _ _ ch =>
      match (findAllList spec_no_lazy_img_sub ch).head? with
      | some img =>
          match node_get img "src" with
          | some s => if s = "" then none else some (py_strip s)
          | none => none
      | none => none
  | .text _ => none

/-- Hero extraction as claim C1 states it after amendment: tier 1 takes the
candidate of the first primary container; if that yields nothing, tier 2
returns the candidate of the first fallback container that has one. -/
def spec_hero_image_amended (doc : Doc) : Option String :=
  let tier1 :=
    match (findAllList spec_primary_div_sub doc).head? with
    | some container => spec_candidate_src container
    | none => none
  match tier1 with
  | some s => some s
  | none => (findAllList spec_s_col_div_sub doc).findSome? spec_candidate_src

/-- Claim C6 as amended: a kept slug character — a Unicode word character
(letter, digit or underscore; among ASCII exactly `[A-Za-z0-9_]`) or `-`. -/
def spec_keep_char_amended (c : Char) : Bool :=
  ((((c.isUpper || c.isLower) || c.isDigit) || latin1_alnum c) || c == '_') || c == '-'

/-- The page slug of claim C6 as amended: last path segment of the page URL
(or `page` when empty), every character that is neither a Unicode word
character nor `-` replaced by `_`. -/
def spec_page_slug_amended (page_url : String) : String :=
  let seg := posix_name (urlparse_path page_url)
  let seg := if seg = "" then "page" else seg
  String.mk (seg.toList.map (fun c => if spec_keep_char_amended c then c else '_'))

/-!
### Helper lemmas
-/

mutual

/-- The first pre-order match is the head of the list of all pre-order
matches (single-node version, proved mutually with the forest version). -/
theorem findNode_eq_head (p : Node → Bool) :
    (n : Node) → findNode p n = (findAllNode p n).head?
  | .text s => by
      cases h : p (.text s) <;> simp [findNode, findAllNode, h]
  | .elem nm a c ch => by
      cases h : p (.elem nm a c ch) <;>
        simp [findNode, findAllNode, h, findNodeList_eq_head p ch]

theorem findNodeList_eq_head (p : Node → Bool) :
    (l : List Node) → findNodeList p l = (findAllList p l).head?
  | [] => by simp [findNodeList, findAllList]
  | n :: rest => by
      rw [findNodeList, findAllList, findNode_eq_head p n,
        findNodeList_eq_head p rest, List.head?_append]
      cases (findAllNode p n).head? <;> simp [Option.or]

end

/-- Appending one element at a time from the left is `map`. -/
theorem foldl_append_eq_map {α β : Type} (f : α → β) :
    ∀ (l : List α) (acc : List β),
      l.foldl (fun a x => a ++ [f x]) acc = acc ++ l.map f
  | [], acc => by simp
  | x :: xs, acc => by
      rw [List.foldl_cons, foldl_append_eq_map f xs (acc ++ [f x])]
      simp

/-- The scrape loop produces exactly the per-URL results, in order. -/
theorem run_scrape_eq_map (fetch : String → Option Doc) (raw : List String) :
    run_scrape fetch raw = (valid_urls raw).map (scrape_images fetch) := by
  rw [run_scrape, foldl_append_eq_map]
  simp

/-- Every result record carries the URL it was scraped from. -/
theorem scrape_images_url (fetch : String → Option Doc) (url : String) :
    (scrape_images fetch url).url = url := by
  cases h : fetch url <;> simp [scrape_images, h]

/-- `list_pre_of` decides list prefixhood. -/
theorem list_pre_of_iff : ∀ (a b : List Char), list_pre_of a b = true ↔ a <+: b
  | [], b => by simp [list_pre_of]
  | a :: as_, [] => by simp [list_pre_of]
  | a :: as_, b :: bs => by
      simp [list_pre_of, List.cons_prefix_cons, list_pre_of_iff as_ bs]

/-- `list_sub_of` decides list infixhood. -/
theorem list_sub_of_iff : ∀ (a b : List Char), list_sub_of a b = true ↔ a <:+: b
  | a, [] => by simp [list_sub_of, list_pre_of_iff]
  | a, b :: bs => by
      simp [list_sub_of, list_pre_of_iff, list_sub_of_iff a bs, List.infix_cons_iff]

/-- Substring containment is preserved by passing to a string whose
character list contains the haystack as an infix. -/
theorem pyStrIn_of_infix {n s t : String} (hst : s.toList <:+: t.toList)
    (h : pyStrIn n s = true) : pyStrIn n t = true := by
  simp only [pyStrIn, list_sub_of_iff] at h ⊢
  exact h.trans hst

/-- `String.toList` distributes over append. -/
theorem toList_append (a b : String) : (a ++ b).toList = a.toList ++ b.toList := rfl

/-- Every class token embeds as an infix of the space-joined class value. -/
theorem toList_infix_join (t : String) : ∀ (toks : List String), t ∈ toks →
    t.toList <:+: (join_space toks).toList
  | [], h => absurd h (List.not_mem_nil t)
  | [x], h => by
      rcases List.mem_singleton.mp h with rfl
      simp only [join_space]
      exact List.infix_refl _
  | x :: y :: ys, h => by
      rcases List.mem_cons.mp h with rfl | hmem
      · simp only [join_space, toList_append]
        have hp : t.toList <+:
            (t.toList ++ " ".toList) ++ (join_space (y :: ys)).toList := by
          rw [List.append_assoc]
          exact List.prefix_append _ _
        exact hp.isInfix
      · simp only [join_space, toList_append]
        exact (toList_infix_join t (y :: ys) hmem).trans
          (List.suffix_append _ _).isInfix

/-- BeautifulSoup's token-then-joined matching of a single-marker truthy
lambda is substring containment in the space-joined class value. -/
theorem any_with_join_eq (needle : String) (toks : List String)
    (h0 : pyStrIn needle "" = false) :
    (toks.any (fun c => decide (c ≠ "") && pyStrIn needle c)
      || (decide (join_space toks ≠ "") && pyStrIn needle (join_space toks)))
    = pyStrIn needle (join_space toks) := by
  cases hj : pyStrIn needle (join_space toks) with
  | true =>
      have hne : join_space toks ≠ "" := by
        intro he
        rw [he, h0] at hj
        exact Bool.noConfusion hj
      rw [decide_eq_true hne]
      simp
  | false =>
      simp only [hj, Bool.and_false, Bool.or_false]
      cases ha : toks.any (fun c => decide (c ≠ "") && pyStrIn needle c) with
      | false => rfl
      | true =>
          exfalso
          obtain ⟨t, hmem, hft⟩ := List.any_eq_true.mp ha
          rw [Bool.and_eq_true] at hft
          have hjt := pyStrIn_of_infix (toList_infix_join t toks hmem) hft.2
          rw [hj] at hjt
          exact Bool.noConfusion hjt

/-- BeautifulSoup's token-then-joined matching of the all-markers truthy
lambda is containment of every marker in the space-joined class value. -/
theorem all_with_join_eq (needles : List String) (toks : List String)
    (h0 : ∃ rc ∈ needles, pyStrIn rc "" = false) :
    (toks.any (fun c => decide (c ≠ "") && needles.all (fun rc => pyStrIn rc c))
      || (decide (join_space toks ≠ "")
          && needles.all (fun rc => pyStrIn rc (join_space toks))))
    = needles.all (fun rc => pyStrIn rc (join_space toks)) := by
  cases hj : needles.all (fun rc => pyStrIn rc (join_space toks)) with
  | true =>
      have hne : join_space toks ≠ "" := by
        intro he
        obtain ⟨rc, hrc, hrc0⟩ := h0
        have hx := List.all_eq_true.mp hj rc hrc
        rw [he, hrc0] at hx
        exact Bool.noConfusion hx
      rw [decide_eq_true hne]
      simp
  | false =>
      simp only [hj, Bool.and_false, Bool.or_false]
      cases ha : toks.any
          (fun c => decide (c ≠ "") && needles.all (fun rc => pyStrIn rc c)) with
      | false => rfl
      | true =>
          exfalso
          obtain ⟨t, hmem, hft⟩ := List.any_eq_true.mp ha
          rw [Bool.and_eq_true] at hft
          have hall : needles.all (fun rc => pyStrIn rc (join_space toks)) = true := by
            rw [List.all_eq_true]
            intro rc hrc
            exact pyStrIn_of_infix (toList_infix_join t toks hmem)
              (List.all_eq_true.mp hft.2 rc hrc)
          rw [hj] at hall
          exact Bool.noConfusion hall

/-- The strategy-1 div filter coincides with the amended claim's
substring-of-joined-class test. -/
theorem is_div_strat1_eq : is_div_with strat1_class_fn = spec_primary_div_sub := by
  funext n
  cases n with
  | text s => rfl
  | elem nm a cls ch =>
      cases cls with
      | none => rfl
      | some toks =>
          refine congrArg (fun b => nm == "div" && b) ?_
          exact all_with_join_eq required_classes toks ⟨"s_col", by decide, by decide⟩

/-- The strategy-2 div filter coincides with the amended claim's
substring-of-joined-class test. -/
theorem is_div_s_col_eq : is_div_with s_col_class_fn = spec_s_col_div_sub := by
  funext n
  cases n with
  | text s => rfl
  | elem nm a cls ch =>
      cases cls with
      | none => rfl
      | some toks =>
          refine congrArg (fun b => nm == "div" && b) ?_
          exact any_with_join_eq "s_col" toks (by decide)

/-- The `no_lazy` image filter coincides with the amended claim's
substring-of-joined-class test. -/
theorem is_no_lazy_img_eq_sub : is_no_lazy_img = spec_no_lazy_img_sub := by
  funext n
  cases n with
  | text s => rfl
  | elem nm a cls ch =>
      cases cls with
      | none => rfl
      | some toks =>
          refine congrArg (fun b => nm == "img" && b) ?_
          exact any_with_join_eq "no_lazy" toks (by decide)

/-- The shared per-container body coincides with the amended claim's
candidate function. -/
theorem div_hero_src_eq : div_hero_src = spec_candidate_src := by
  funext n
  cases n with
  | text s => rfl
  | elem nm a cls ch =>
      simp only [div_hero_src, spec_candidate_src, findNodeList_eq_head,
        is_no_lazy_img_eq_sub]

/-- Task-list equality helper (hero half): the source's truthiness test
emits a task exactly for a present, non-empty hero field. -/
theorem hero_tasks_of_eq (r : PageResult) :
    hero_tasks_of r =
      ((r.hero_image.filter (fun s => s != "")).map
        (fun h => ImageTask.mk h r.url "hero")).toList := by
  cases hr : r.hero_image with
  | none => simp [hero_tasks_of, hr, Option.filter]
  | some h =>
      by_cases hh : h = "" <;> simp [hero_tasks_of, hr, Option.filter, hh]

/-- Task-list equality helper (OG half). -/
theorem og_tasks_of_eq (r : PageResult) :
    og_tasks_of r =
      ((r.og_image.filter (fun s => s != "")).map
        (fun o => ImageTask.mk o r.url "og")).toList := by
  cases ho : r.og_image with
  | none => simp [og_tasks_of, ho, Option.filter]
  | some o =>
      by_cases hh : o = "" <;> simp [og_tasks_of, ho, Option.filter, hh]

/-!
### The claims
-/

/-- First document of claim C1's counterexample: the leading div carries
`s_columns` (not the token `s_col`), the second div carries the exact five
marker tokens. -/
def c1_sub_doc : Doc :=
  [.elem "div" []
     (some ["s_columns", "col-md-6", "d-md-flex", "flex-column", "align-items-md-end"])
     [.elem "img" [("src", "https://x/sub.jpg")] (some ["no_lazy"]) []],
   .elem "div" [] (some required_classes)
     [.elem "img" [("src", "https://x/tok.jpg")] (some ["no_lazy"]) []]]

/-- Second document of claim C1's counterexample: the five-class container's
first `no_lazy` image has an empty `src`, its second a non-empty one. -/
def c1_src_doc : Doc :=
  [.elem "div" [] (some required_classes)
     [.elem "img" [("src", "")] (some ["no_lazy"]) [],
      .elem "img" [("src", "https://x/second.jpg")] (some ["no_lazy"]) []]]

/-- C1 counterexample: the claimed token-based algorithm differs from the
code twice over.  On the first document the claim's primary strategy skips
the `s_columns` div (no token `s_col`) and returns `tok.jpg`, but the code's
matching is by substring of the space-joined class value, so the `s_columns`
div matches first and `sub.jpg` is returned.  On the second document the
claim returns the first `no_lazy` image with *non-empty* `src` (`second.jpg`),
but the code only inspects the container's first `no_lazy` image and, its
`src` being empty, falls through both strategies and returns nothing. -/
theorem hero_two_tier_as_claimed_counterexample :
    (extract_hero_image c1_sub_doc = some "https://x/sub.jpg"
      ∧ spec_hero_image c1_sub_doc = some "https://x/tok.jpg")
    ∧ (extract_hero_image c1_src_doc = none
      ∧ spec_hero_image c1_src_doc = some "https://x/second.jpg") :=
  ⟨⟨by decide, by decide⟩, by decide, by decide⟩

/-- C1 (amended): hero extraction is two-tier with substring (not
whole-token) class matching against the space-joined class value, and each
container contributes only its first `no_lazy` image, provided that image
has a non-empty `src`: tier 1 takes the first div containing all five
markers as substrings; if its candidate is absent, tier 2 scans the divs
containing `s_col` as a substring in document order and returns the first
candidate; otherwise the hero image is absent. -/
theorem hero_extraction_amended (doc : Doc) :
    extract_hero_image doc = spec_hero_image_amended doc := by
  simp only [extract_hero_image, spec_hero_image_amended, findNodeList_eq_head,
    is_div_strat1_eq, is_div_s_col_eq, div_hero_src_eq]

/-- The document of claim C2's counterexample: an `og:image` meta whose
content is whitespace only. -/
def c2_doc : Doc :=
  [.elem "meta" [("property", "og:image"), ("content", "   ")] none []]

/-- C2 counterexample: on whitespace-only content the claim says the OG
image is absent, but the code tests the content for truthiness before
trimming and returns the trimmed value — the empty string. -/
theorem og_image_whitespace_content_counterexample :
    extract_og_image c2_doc = some "" ∧ spec_og_image c2_doc = none := by
  constructor <;> decide

/-- C2 (amended): only the first `meta[property=og:image]` in document order
is considered, and the trimmed content is returned exactly when the content
attribute is present and non-empty before trimming (whitespace-only content
therefore yields the empty string); otherwise the OG image is absent. -/
theorem og_image_extraction_amended (doc : Doc) :
    extract_og_image doc = spec_og_image_amended doc := by
  unfold extract_og_image spec_og_image_amended
  rw [findNodeList_eq_head]

/-- C3: one result per input URL, in input order, without deduplication,
and each result's `url` field is the normalized input URL. -/
theorem scrape_loop_one_result_per_url (fetch : String → Option Doc)
    (urls : List String) :
    (run_scrape fetch urls).length = urls.length
    ∧ ∀ (i : Nat) (u : String), urls[i]? = some u →
        ((run_scrape fetch urls)[i]?).map PageResult.url = some (normalize_url u) := by
  constructor
  · rw [run_scrape_eq_map]
    simp [valid_urls]
  · intro i u hu
    rw [run_scrape_eq_map]
    unfold valid_urls
    rw [List.getElem?_map, List.getElem?_map, hu]
    simp [scrape_images_url]

/-- Witness for C3 at a duplicated two-element input. -/
theorem scrape_loop_one_result_per_url_witness :
    (run_scrape (fun _ => none) ["brightdata.com", "brightdata.com"]).length = 2
    ∧ ((run_scrape (fun _ => none) ["brightdata.com", "brightdata.com"])[1]?).map
        PageResult.url = some "https://brightdata.com" :=
  ⟨(scrape_loop_one_result_per_url (fun _ => none) ["brightdata.com", "brightdata.com"]).1,
   (scrape_loop_one_result_per_url (fun _ => none) ["brightdata.com", "brightdata.com"]).2
     1 "brightdata.com" rfl⟩

/-- C4: when the fetch of one URL fails, that URL's result is an `error`
record with both image fields absent, and the loop still yields one result
per input URL. -/
theorem fetch_failure_isolated (fetch : String → Option Doc)
    (urls : List String) (i : Nat) (u : String)
    (hu : urls[i]? = some u) (hf : fetch (normalize_url u) = none) :
    (run_scrape fetch urls)[i]? =
      some { url := normalize_url u, hero_image := none, og_image := none,
             status := "error" }
    ∧ (run_scrape fetch urls).length = urls.length := by
  constructor
  · rw [run_scrape_eq_map]
    unfold valid_urls
    rw [List.getElem?_map, List.getElem?_map, hu]
    simp [scrape_images, hf]
  · rw [run_scrape_eq_map]
    simp [valid_urls]

/-- Witness for C4: everything fails to fetch; the second URL still gets its
own `error` result. -/
theorem fetch_failure_isolated_witness :
    (run_scrape (fun _ => none) ["brightdata.com", "example.com"])[1]? =
      some { url := "https://example.com", hero_image := none, og_image := none,
             status := "error" }
    ∧ (run_scrape (fun _ => none) ["brightdata.com", "example.com"]).length = 2 :=
  fetch_failure_isolated (fun _ => none) ["brightdata.com", "example.com"]
    1 "example.com" rfl rfl

/-- The result of claim C5's counterexample: a present but empty hero field
(reachable, e.g. from a hero `img` whose `src` is whitespace only). -/
def c5_result : PageResult :=
  { url := "https://x/p", hero_image := some "", og_image := none, status := "ok" }

/-- C5 counterexample: the claim's task list (one task per *present* image
field) is non-empty, so the claim promises an archive; the code tests the
fields for truthiness, builds no task for the empty-string hero, and returns
absent. -/
theorem packager_truthiness_counterexample :
    spec_tasks_present [c5_result] = [ImageTask.mk "" "https://x/p" "hero"]
    ∧ image_tasks [c5_result] = []
    ∧ build_zip (fun _ => none) [c5_result] = none := by
  refine ⟨by decide, by decide, by decide⟩

/-- C5 (amended): the packager visits results in input order and emits, per
result, a hero task if the hero image is present and non-empty, then an OG
task if the OG image is present and non-empty; it returns absent exactly
when this task list is empty. -/
theorem packager_task_list_amended (fetch_img : String → Option Bytes)
    (results : List PageResult) :
    image_tasks results = spec_tasks_nonempty results
    ∧ (build_zip fetch_img results = none ↔ image_tasks results = []) := by
  constructor
  · unfold image_tasks spec_tasks_nonempty
    exact congrArg results.flatMap (funext fun r => by
      rw [hero_tasks_of_eq, og_tasks_of_eq])
  · unfold build_zip
    by_cases ht : image_tasks results = [] <;> simp [ht]

/-- C6 counterexample: the page slug `café` contains the non-ASCII word
character `é`, which the claim's class `[A-Za-z0-9_-]` maps to `_` but
Python's Unicode-aware `\w` keeps, so the code writes `café__hero__i.png`
where the claim demands `caf___hero__i.png`. -/
theorem entry_name_unicode_counterexample :
    safe_filename "https://x/i.png" "https://x/café" "hero" = "café__hero__i.png"
    ∧ spec_page_slug "https://x/café" = "caf_" :=
  ⟨by decide, by decide⟩

/-- C6 (amended): the archive entry name is
`<page-slug>__<kind>__<image-name>`, where the page slug replaces every
character that is neither a Unicode word character (letter, digit or
underscore; among ASCII exactly `[A-Za-z0-9_]`) nor `-` by `_`. -/
theorem archive_entry_name_composition_amended (img_url page_url kind : String) :
    safe_filename img_url page_url kind =
      spec_page_slug_amended page_url ++ "__" ++ kind ++ "__"
        ++ spec_image_name img_url := rfl

/-- C7: a task whose image download fails contributes no archive entry,
packaging still succeeds, the archive holds exactly the images that did
download, and it is non-empty as soon as some other task's download
succeeded.  (The embedding is pure: `build_zip` only reads `results`, so no
`PageResult` is modified.) -/
theorem failed_download_silently_skipped (fetch_img : String → Option Bytes)
    (results : List PageResult) (t : ImageTask)
    (ht : t ∈ image_tasks results) (hf : fetch_img t.img_url = none) :
    build_zip fetch_img results =
      some ((image_tasks results).filterMap (download_entry fetch_img))
    ∧ download_entry fetch_img t = none
    ∧ (∀ e ∈ (image_tasks results).filterMap (download_entry fetch_img),
        ∃ t2 ∈ image_tasks results, fetch_img t2.img_url = some e.2)
    ∧ ((∃ t2 ∈ image_tasks results, (fetch_img t2.img_url).isSome) →
        (image_tasks results).filterMap (download_entry fetch_img) ≠ []) := by
  refine ⟨?_, ?_, ?_, ?_⟩
  · unfold build_zip
    rw [if_neg (List.ne_nil_of_mem ht)]
  · unfold download_entry
    rw [hf]
  · intro e he
    rw [List.mem_filterMap] at he
    obtain ⟨t2, h2, hde⟩ := he
    refine ⟨t2, h2, ?_⟩
    unfold download_entry at hde
    cases hfi : fetch_img t2.img_url with
    | none => rw [hfi] at hde; exact absurd hde (by simp)
    | some b =>
        rw [hfi] at hde
        simp only [Option.some.injEq] at hde
        rw [← hde]
  · rintro ⟨t2, h2, hs⟩ hnil
    rw [List.filterMap_eq_nil_iff] at hnil
    have hde := hnil t2 h2
    obtain ⟨b, hb⟩ := Option.isSome_iff_exists.mp hs
    unfold download_entry at hde
    rw [hb] at hde
    exact absurd hde (by simp)

/-- Witness for C7: the hero download fails, the OG download succeeds; the
archive contains exactly the OG entry. -/
theorem failed_download_silently_skipped_witness :
    build_zip (fun u => if u = "https://x/h.jpg" then none else some [7])
      [{ url := "https://x/p", hero_image := some "https://x/h.jpg",
         og_image := some "https://x/o.png", status := "ok" }]
    = some [("p__og__o.png", [7])] := by
  have h := failed_download_silently_skipped
    (fun u => if u = "https://x/h.jpg" then none else some [7])
    [{ url := "https://x/p", hero_image := some "https://x/h.jpg",
       og_image := some "https://x/o.png", status := "ok" }]
    (ImageTask.mk "https://x/h.jpg" "https://x/p" "hero") (by decide) (by decide)
  rw [h.1]
  decide

/-- C8: the scrape loop is deterministic — its results depend only on the
page content the fetcher returns for the normalized input URLs, so two runs
with identical input and identical page content yield identical result
sequences. -/
theorem scrape_loop_deterministic (f g : String → Option Doc)
    (urls : List String) (h : ∀ u ∈ valid_urls urls, f u = g u) :
    run_scrape f urls = run_scrape g urls := by
  rw [run_scrape_eq_map, run_scrape_eq_map]
  exact List.map_congr_left fun u hu => by
    unfold scrape_images
    rw [h u hu]

/-- Witness for C8 at a concrete input. -/
theorem scrape_loop_deterministic_witness :
    run_scrape (fun _ => none) ["brightdata.com"]
    = run_scrape (fun _ => none) ["brightdata.com"] :=
  scrape_loop_deterministic (fun _ => none) (fun _ => none) ["brightdata.com"]
    (fun _ _ => rfl)

/-- C9: with a non-empty task list whose downloads all fail, `build_zip`
still returns a present archive with zero entries, not absent. -/
theorem all_downloads_failed_empty_archive (fetch_img : String → Option Bytes)
    (results : List PageResult) (h1 : image_tasks results ≠ [])
    (h2 : ∀ t ∈ image_tasks results, fetch_img t.img_url = none) :
    build_zip fetch_img results = some [] := by
  unfold build_zip
  rw [if_neg h1]
  refine congrArg some ?_
  rw [List.filterMap_eq_nil_iff]
  intro t ht
  unfold download_entry
  rw [h2 t ht]

/-- Witness for C9: one discovered image, every download fails. -/
theorem all_downloads_failed_empty_archive_witness :
    build_zip (fun _ => none)
      [{ url := "https://x/p", hero_image := some "https://x/h.jpg",
         og_image := none, status := "ok" }]
    = some [] :=
  all_downloads_failed_empty_archive (fun _ => none)
    [{ url := "https://x/p", hero_image := some "https://x/h.jpg",
       og_image := none, status := "ok" }]
    (by decide) (fun _ _ => rfl)

/-- C10: every returned result has status `ok` or `error`; the initial
`pending` status is never observable, and the status is `ok` exactly when
the page fetch succeeded. -/
theorem status_ok_or_error (fetch : String → Option Doc) (url : String) :
    ((scrape_images fetch url).status = "ok"
      ∨ (scrape_images fetch url).status = "error")
    ∧ (scrape_images fetch url).status ≠ "pending"
    ∧ ((scrape_images fetch url).status = "ok" ↔ (fetch url).isSome) := by
  cases h : fetch url <;> simp [scrape_images, h]

/-- Witness for C10 at a failing fetch. -/
theorem status_ok_or_error_witness :
    ((scrape_images (fun _ => none) "https://x").status = "ok"
      ∨ (scrape_images (fun _ => none) "https://x").status = "error")
    ∧ (scrape_images (fun _ => none) "https://x").status ≠ "pending"
    ∧ ((scrape_images (fun _ => none) "https://x").status = "ok"
        ↔ ((fun _ => none : String → Option Doc) "https://x").isSome) :=
  status_ok_or_error (fun _ => none) "https://x"
